import Mathlib

/-!
Verification of the adaptive label layout and composition engine of
`brother_ql_web.py` (tool-vision-inventory monorepo).

The Python source is shallowly embedded below.  Conventions:

* Python `int` values are modelled as `ℤ` (they are unbounded in Python);
  pixel counts and font sizes that the code keeps nonnegative are `ℕ`
  where that is faithful.
* Python `float` values are modelled as `ℚ`.  Every float constant used
  by the code (0.9, 0.98, 1.12, 0.6, percentages divided by 100) has a
  relative representation error below 2^-52, while all products the code
  truncates are of the form `k * (p/q)` with `k : ℤ` moderate and `q ≤ 100`,
  so a product is never within one double ulp of crossing an integer
  unless it is exactly that integer (in which case IEEE rounding recovers
  it).  Hence `int(...)` over these floats agrees with exact rational
  truncation, and the `ℚ` model is faithful.
* `int(x)` for a float `x` truncates towards zero: `py_int`.
* PIL text measurement (`textbbox` / `multiline_textbbox`) and the
  word-wrap built on top of it are treated as black-box oracles where a
  claim quantifies over text: they appear as function parameters
  (`wrapF`, `measureF`).  QR bitmap generation is likewise abstracted
  into a Boolean "a QR image is present".
* The module-level dict `BIN_LABEL_CACHE` is modelled as an association
  list in insertion order (Python dicts preserve insertion order, and
  assignment to an existing key keeps its position).  `sorted(...)` on
  the items is modelled by `List.insertionSort` on the timestamp order;
  under the strict-timestamp hypotheses used below any ascending sort
  agrees with Python's stable sort.
-/

attribute [local semireducible] Rat.mul Rat.add Rat.sub Rat.inv

/-- Truncation towards zero, Python `int(...)` applied to a float: the
truncating division of the numerator by the (positive) denominator. -/
def py_int (q : ℚ) : ℤ := q.num.tdiv q.den

/-- Python `x or default` for an optional string (`None` and `''` are falsy). -/
def py_str_or (x : Option String) (d : String) : String :=
  match x with
  | none => d
  | some s => if s = "" then d else s

/-- Label orientations accepted by the web forms. -/
inductive LabelOrient where
  | standard
  | rotated
deriving DecidableEq

/-- The three label kinds of `brother_ql.devicedependent` used by the code:
`ENDLESS_LABEL`, `DIE_CUT_LABEL`, `ROUND_DIE_CUT_LABEL`. -/
inductive LabelKind where
  | endless
  | dieCut
  | roundDieCut
deriving DecidableEq

/-- One margin of `get_label_context`: the form sends a percentage, the code
computes `float(percent)/100` and then `int(font_size * fraction)`. -/
def resolve_margin (font_size : ℕ) (percent : ℚ) : ℤ :=
  py_int ((font_size : ℚ) * (percent / 100))

/-- The four margins of `get_label_context` (lines 119-127), each resolved
independently from its own percentage. -/
def resolve_margins (font_size : ℕ) (pt pb pl pr : ℚ) : ℤ × ℤ × ℤ × ℤ :=
  (resolve_margin font_size pt, resolve_margin font_size pb,
   resolve_margin font_size pl, resolve_margin font_size pr)

/-- Width/height resolution of `get_label_context` (lines 152-155): start from
the catalog's `dots_printable` pair, canonicalise so that width ≥ height,
then swap once more when the orientation is `rotated`. -/
def resolve_label_wh (w0 h0 : ℕ) (o : LabelOrient) : ℕ × ℕ :=
  let p := if h0 > w0 then (h0, w0) else (w0, h0)
  if o = LabelOrient.rotated then (p.2, p.1) else p

/-- Geometry produced by `create_label_im` before drawing: final canvas size
and the text offsets (lines 263-291). -/
structure LabelImLayout where
  width : ℤ
  height : ℤ
  horizontal_offset : ℤ
  vertical_offset : ℤ
deriving DecidableEq

/-- The size/offset computation of `create_label_im` (lines 263-291); the text
bounding box `(textW, textH)` measured by PIL is passed in.  Python `//` is
floor division, `Int.fdiv`. -/
def create_label_im_layout (kind : LabelKind) (o : LabelOrient)
    (width0 height0 : ℤ) (mt mb ml mr : ℤ) (textW textH : ℤ) : LabelImLayout :=
  let width := if o = LabelOrient.rotated ∧ kind = LabelKind.endless then
      textW + ml + mr else width0
  let height := if o = LabelOrient.standard ∧ kind = LabelKind.endless then
      textH + mt + mb else height0
  let width := max 1 width
  let height := max 1 height
  let voff :=
    if o = LabelOrient.standard then
      if kind = LabelKind.dieCut ∨ kind = LabelKind.roundDieCut then
        (height - textH).fdiv 2 + (mt - mb).fdiv 2
      else mt
    else
      (height - textH).fdiv 2 + (mt - mb).fdiv 2
  let hoff :=
    if o = LabelOrient.standard then
      max ((width - textW).fdiv 2) 0
    else
      if kind = LabelKind.dieCut ∨ kind = LabelKind.roundDieCut then
        max ((width - textW).fdiv 2) 0
      else ml
  ⟨width, height, hoff, voff⟩

/-!
`BIN_LABEL_CACHE` model.  An entry is `(png, ts)`; the store is an
association list in dict insertion order.  `κ` is the key type (SHA-256
hex strings in the program), `ν` the stored bytes.
-/

/-- Python dict assignment `d[k] = v`: replace the value at an existing key
(keeping its position), else append at the end. -/
def assoc_set {κ ν : Type} [DecidableEq κ] :
    List (κ × ν) → κ → ν → List (κ × ν)
  | [], k, v => [(k, v)]
  | (k', v') :: rest, k, v =>
    if k = k' then (k, v) :: rest else (k', v') :: assoc_set rest k v

/-- Python dict lookup `d.get(k)`. -/
def assoc_find {κ ν : Type} [DecidableEq κ] :
    List (κ × ν) → κ → Option ν
  | [], _ => none
  | (k', v') :: rest, k => if k = k' then some v' else assoc_find rest k

/-- Ascending timestamp order used by `sorted(BIN_LABEL_CACHE.items(),
key=lambda kv: kv[1]['ts'])`. -/
def ts_le {κ ν : Type} (a b : κ × ν × ℚ) : Prop := a.2.2 ≤ b.2.2

instance {κ ν : Type} : DecidableRel (@ts_le κ ν) :=
  fun a b => inferInstanceAs (Decidable (a.2.2 ≤ b.2.2))

instance {κ ν : Type} : IsTotal (κ × ν × ℚ) ts_le :=
  ⟨fun a b => le_total a.2.2 b.2.2⟩

instance {κ ν : Type} : IsTrans (κ × ν × ℚ) ts_le :=
  ⟨fun _ _ _ h1 h2 => le_trans h1 h2⟩

/-- `_cache_bin_label_png` (lines 49-56): store `(png, ts)` under `key`; if the
store then holds more than 100 entries, drop the 20 with the oldest
timestamps (first 20 of the items sorted ascending by `ts`). -/
def cache_bin_label_png {κ ν : Type} [DecidableEq κ]
    (cache : List (κ × ν × ℚ)) (key : κ) (png : ν) (now : ℚ) :
    List (κ × ν × ℚ) :=
  let c1 := assoc_set cache key (png, now)
  if 100 < c1.length then
    let sorted := List.insertionSort ts_le c1
    let evicted := (sorted.take 20).map Prod.fst
    c1.filter (fun e => decide (e.1 ∉ evicted))
  else c1

/-- `_get_cached_bin_label_png` (lines 58-65): return the stored bytes when the
entry exists and is no older than `max_age_sec`; a stale entry is popped and
a miss (`none`) is reported.  The result is the returned value paired with
the store after the call. -/
def get_cached_bin_label_png {κ ν : Type} [DecidableEq κ]
    (cache : List (κ × ν × ℚ)) (key : κ) (now : ℚ) (max_age_sec : ℚ) :
    Option ν × List (κ × ν × ℚ) :=
  match assoc_find cache key with
  | none => (none, cache)
  | some (png, ts) =>
    if max_age_sec < now - ts then
      (none, cache.filter (fun e => decide (e.1 ≠ key)))
    else
      (some png, cache)

/-- `_get_cached_bin_label_png` with its default `max_age_sec = 120`. -/
def get_cached_bin_label_png_default {κ ν : Type} [DecidableEq κ]
    (cache : List (κ × ν × ℚ)) (key : κ) (now : ℚ) :
    Option ν × List (κ × ν × ℚ) :=
  get_cached_bin_label_png cache key now 120

/-!
`_build_bin_label_cache_key` model.  The `context` dict is an association
list of field name to value so that field insertion order is visible.
`json.dumps(payload, sort_keys=True)` serialises the fixed eleven-field
payload in a canonical key order; the serialised blob is therefore a
function of the payload record alone, and `hashlib.sha256(...).hexdigest()`
is a further pure function of the blob.  Both are modelled by one abstract
function `hash` from the payload record to the key string.
-/

/-- A value stored in the label context dict (the fields read by the cache
key builder hold strings and ints). -/
inductive CtxVal where
  | str (s : String)
  | int (n : ℤ)
deriving DecidableEq

/-- Lookup in the context dict, `context.get(k)`. -/
def ctx_lookup : List (String × CtxVal) → String → Option CtxVal
  | [], _ => none
  | (k', v) :: rest, k => if k = k' then some v else ctx_lookup rest k

/-- `int(context.get(k, 0))`.  At every call site of the key builder these
fields hold Python ints, so `int(·)` is the identity there; a string value
(which `int(·)` would parse or raise on) does not occur and is mapped to 0. -/
def ctx_int (c : List (String × CtxVal)) (k : String) : ℤ :=
  match ctx_lookup c k with
  | some (CtxVal.int n) => n
  | some (CtxVal.str _) => 0
  | none => 0

/-- The canonical payload of `_build_bin_label_cache_key` (lines 33-45);
field names follow the JSON keys, with `orient` for the JSON key of the
orientation. -/
structure BinLabelKeyPayload where
  t : String
  c : String
  ls : Option CtxVal
  fs : ℤ
  al : Option CtxVal
  orient : Option CtxVal
  mt : ℤ
  mb : ℤ
  ml : ℤ
  mr : ℤ
  qr : ℚ
deriving DecidableEq

/-- `_build_bin_label_cache_key` (lines 32-47): assemble the canonical payload
from the arguments and the context fields, then hash it.  `hash` stands for
`sha256(json.dumps(payload, sort_keys=True))`, a fixed pure function. -/
def build_bin_label_cache_key (hash : BinLabelKeyPayload → String)
    (text code : Option String) (context : List (String × CtxVal))
    (qr_scale : ℚ) : String :=
  hash ⟨py_str_or text "", py_str_or code "",
        ctx_lookup context "label_size",
        ctx_int context "font_size",
        ctx_lookup context "align",
        ctx_lookup context "orientation",
        ctx_int context "margin_top",
        ctx_int context "margin_bottom",
        ctx_int context "margin_left",
        ctx_int context "margin_right",
        qr_scale⟩

/-- The eight context fields the cache key builder reads. -/
def bin_label_key_fields : List String :=
  ["label_size", "font_size", "align", "orientation",
   "margin_top", "margin_bottom", "margin_left", "margin_right"]

/-!
`_compose_bin_label_image`, geometry part (lines 377-431): canvas growth for
endless labels, QR sizing and clamping, gap, and the text zone.  The text
bounding box `(text_w0, text_h0)` of the (possibly auto-grown) font is an
input; `has_qr` states that `qr_im` is not `None` (a QR payload was given
and QR generation succeeded).
-/

/-- The geometry values computed by `_compose_bin_label_image` before text
wrapping starts. -/
structure BinLabelGeom where
  width : ℤ
  height : ℤ
  avail_w : ℤ
  avail_h : ℤ
  qr_size : ℤ
  gap : ℤ
  text_x : ℤ
  text_y : ℤ
  text_w : ℤ
  text_h : ℤ
deriving DecidableEq

/-- Geometry part of `_compose_bin_label_image` (lines 377-431).  Note that in
the endless branches `qr_size` is computed from `qr_scale` whether or not a
QR image exists; only the clamping step (lines 406-413) is guarded by
`qr_im is not None`. -/
def compose_bin_label_geom (kind : LabelKind) (o : LabelOrient)
    (text_w0 text_h0 : ℤ) (width0 height0 : ℤ) (mt mb ml mr : ℤ)
    (has_qr : Bool) (qr_scale : ℚ) : BinLabelGeom :=
  let dims :=
    if kind = LabelKind.endless then
      if o = LabelOrient.standard then
        let qs := py_int (max 1 (qr_scale * ((text_h0 + mt + mb : ℤ) : ℚ)))
        (width0, max text_h0 qs + mt + mb, qs)
      else
        let qs := py_int (max 1 (qr_scale * ((text_h0 : ℤ) : ℚ)))
        (text_w0 + (if has_qr then qs + 8 else 0) + ml + mr, height0, qs)
    else (width0, height0, (0 : ℤ))
  let width := max 1 dims.1
  let height := max 1 dims.2.1
  let avail_w := max 1 (width - ml - mr)
  let avail_h := max 1 (height - mt - mb)
  let qr_size :=
    if has_qr then
      let q1 := min (max 1 dims.2.2) avail_h
      let max_qr_w := py_int (max 1 ((avail_w : ℚ) * (60 / 100)))
      if o = LabelOrient.standard then min q1 max_qr_w else q1
    else dims.2.2
  let gap : ℤ := if has_qr ∧ 0 < qr_size then 8 else 0
  ⟨width, height, avail_w, avail_h, qr_size, gap,
   ml + (qr_size + gap), mt, max 1 (avail_w - (qr_size + gap)), avail_h⟩

/-!
`_compose_bin_label_image`, font fitting part (lines 456-497).  `wrapF`
models `wrap_text_to_width(draw, text or ' ', font, text_w)` as a function
of the text, the font size and the width budget; `measureF` models
`measure(draw, s, font)` as a function of the string and the font size.
A font object is identified with its integer size.
-/

/-- State carried by either fitting loop: current font size, wrapped text,
its measured box, and the number of loop iterations executed. -/
structure BinFitState where
  size : ℕ
  wrapped : String
  t_w : ℤ
  t_h : ℤ
  iters : ℕ
deriving DecidableEq

/-- The auto-fit growth loop (lines 469-489): while fewer than 12 iterations
ran and the measured height is below 98% of the target, try a font 1.12×
larger; accept the trial only if it still fits both limits, else stop.  The
fuel argument is `12 - iters`; on rejection the state before the trial (the
last accepted one) is returned, as the Python loop restores `last_ok`. -/
def bin_fit_grow (wrapF : String → ℕ → ℤ → String)
    (measureF : String → ℕ → ℤ × ℤ) (text : String) (text_w target_h : ℤ) :
    ℕ → ℕ → String → ℤ → ℤ → BinFitState
  | 0, size, wrapped, tw, th => ⟨size, wrapped, tw, th, 0⟩
  | fuel + 1, size, wrapped, tw, th =>
    if (th : ℚ) < (target_h : ℚ) * (98 / 100) then
      let next_size := (py_int ((size : ℚ) * (112 / 100))).toNat
      let trial_wrapped := wrapF text next_size text_w
      let m := measureF trial_wrapped next_size
      if m.2 ≤ target_h ∧ m.1 ≤ text_w then
        let r := bin_fit_grow wrapF measureF text text_w target_h fuel
          next_size trial_wrapped m.1 m.2
        ⟨r.size, r.wrapped, r.t_w, r.t_h, r.iters + 1⟩
      else ⟨size, wrapped, tw, th, 1⟩
    else ⟨size, wrapped, tw, th, 0⟩

/-- The overflow guard loop (lines 492-497): while the measured box overflows
the zone, the font size exceeds 10 and fewer than 12 iterations ran, shrink
the font to `max 10 (int(size * 0.9))`, re-wrap and re-measure. -/
def bin_fit_shrink (wrapF : String → ℕ → ℤ → String)
    (measureF : String → ℕ → ℤ × ℤ) (text : String) (text_w text_h : ℤ) :
    ℕ → ℕ → String → ℤ → ℤ → BinFitState
  | 0, size, wrapped, tw, th => ⟨size, wrapped, tw, th, 0⟩
  | fuel + 1, size, wrapped, tw, th =>
    if (text_h < th ∨ text_w < tw) ∧ 10 < size then
      let new_size := max 10 (py_int ((size : ℚ) * (90 / 100))).toNat
      let new_wrapped := wrapF text new_size text_w
      let m := measureF new_wrapped new_size
      let r := bin_fit_shrink wrapF measureF text text_w text_h fuel
        new_size new_wrapped m.1 m.2
      ⟨r.size, r.wrapped, r.t_w, r.t_h, r.iters + 1⟩
    else ⟨size, wrapped, tw, th, 0⟩

/-- Final result of the fitting stage: the font size, wrapped text and its
measured box that get drawn, plus both loops' iteration counts. -/
structure BinFitResult where
  size : ℕ
  wrapped : String
  t_w : ℤ
  t_h : ℤ
  grow_iters : ℕ
  shrink_iters : ℕ
deriving DecidableEq

/-- Lines 456-497 of `_compose_bin_label_image`: wrap at the entering font
size, measure, optionally run the growth loop (the target height is the text
zone height), then always run the overflow guard.  `base_size` is the size of
`im_font` when line 456 runs. -/
def fit_bin_label_text (wrapF : String → ℕ → ℤ → String)
    (measureF : String → ℕ → ℤ × ℤ) (text : String) (text_w text_h : ℤ)
    (base_size : ℕ) (auto_fit : Bool) : BinFitResult :=
  let wrapped0 := wrapF text base_size text_w
  let m0 := measureF wrapped0 base_size
  let g := if auto_fit then
      bin_fit_grow wrapF measureF text text_w text_h 12
        base_size wrapped0 m0.1 m0.2
    else ⟨base_size, wrapped0, m0.1, m0.2, 0⟩
  let s := bin_fit_shrink wrapF measureF text text_w text_h 12
    g.size g.wrapped g.t_w g.t_h
  ⟨s.size, s.wrapped, s.t_w, s.t_h, g.iters, s.iters⟩

/-!
Concrete instances used to evaluate the embedded code on specific inputs.
-/

/-- A wrap oracle for a text that is one long unbreakable word: greedy
word-wrap cannot split inside a word, so the text is returned unchanged. -/
def one_word_wrap (s : String) (_size : ℕ) (_max_w : ℤ) : String := s

/-- A measurement oracle for a long single word: width 100 pixels per unit of
font size, height equal to the font size (plausible glyph metrics for a
100-character word). -/
def one_word_measure (_s : String) (size : ℕ) : ℤ × ℤ :=
  ((100 * size : ℕ), (size : ℕ))

/-- The cache after inserting 121 entries with distinct keys `0..120`, bytes
`1000+i`, at strictly increasing timestamps `i`, starting from empty. -/
def cache_capacity_run : List (ℕ × ℕ × ℚ) :=
  (List.range 121).foldl
    (fun c i => cache_bin_label_png c i (1000 + i) (i : ℚ)) []

/-!
Theorems.
-/

/-- On nonnegative rationals, Python `int(...)` truncation is the floor. -/
theorem py_int_eq_floor (q : ℚ) (h : 0 ≤ q) : py_int q = ⌊q⌋ := by
  rw [py_int, Rat.floor_def,
    Int.tdiv_eq_ediv (Rat.num_nonneg.mpr h) (Int.natCast_nonneg _)]

/-- C8: resolving the label geometry with orientation `rotated` yields the
`standard` resolution with the two components swapped, and applying the
orientation swap twice returns the original width/height pair. -/
theorem resolve_label_wh_rotated_swap :
    (∀ w0 h0 : ℕ, resolve_label_wh w0 h0 LabelOrient.rotated =
      Prod.swap (resolve_label_wh w0 h0 LabelOrient.standard)) ∧
    (∀ (w0 h0 : ℕ) (o : LabelOrient),
      Prod.swap (Prod.swap (resolve_label_wh w0 h0 o)) =
        resolve_label_wh w0 h0 o) := by
  refine ⟨fun w0 h0 => ?_, fun w0 h0 o => Prod.swap_swap _⟩
  unfold resolve_label_wh
  split <;> rfl

/-- C3 counterexample: at font size 102 with the default left-margin
percentage 35 the code resolves the margin to 35 pixels (`int` truncation of
35.7), while `round(font_size * margin_fraction)` is 36. -/
theorem resolve_margin_not_round :
    resolve_margin 102 35 = 35 ∧ round ((102 : ℚ) * (35 / 100)) = 36 ∧
      resolve_margin 102 35 ≠ round ((102 : ℚ) * (35 / 100)) := by
  have h1 : resolve_margin 102 35 = 35 := by decide
  have h2 : round ((102 : ℚ) * (35 / 100)) = 36 := by
    norm_num [round_eq]
  exact ⟨h1, h2, by rw [h1, h2]; decide⟩

/-- C3 amended: for every positive font size and nonnegative margin
percentages, each of the four resolved margin pixel values equals
`⌊font_size * margin_fraction⌋` (Python `int` truncation, which is the floor
for these nonnegative products), computed independently per side. -/
theorem resolve_margins_floor (font_size : ℕ) (pt pb pl pr : ℚ)
    (hpt : 0 ≤ pt) (hpb : 0 ≤ pb) (hpl : 0 ≤ pl) (hpr : 0 ≤ pr) :
    resolve_margins font_size pt pb pl pr =
      (⌊(font_size : ℚ) * (pt / 100)⌋, ⌊(font_size : ℚ) * (pb / 100)⌋,
       ⌊(font_size : ℚ) * (pl / 100)⌋, ⌊(font_size : ℚ) * (pr / 100)⌋) := by
  have key : ∀ p : ℚ, 0 ≤ p →
      resolve_margin font_size p = ⌊(font_size : ℚ) * (p / 100)⌋ := by
    intro p hp
    rw [resolve_margin, py_int_eq_floor]
    positivity
  rw [resolve_margins, key pt hpt, key pb hpb, key pl hpl, key pr hpr]

/-- C3 witness: the defaults of the label designer (font size 100, margins
24/45/35/35 percent) resolve to 24, 45, 35 and 35 pixels. -/
theorem resolve_margins_floor_witness :
    resolve_margins 100 24 45 35 35 =
      (⌊(100 : ℚ) * (24 / 100)⌋, ⌊(100 : ℚ) * (45 / 100)⌋,
       ⌊(100 : ℚ) * (35 / 100)⌋, ⌊(100 : ℚ) * (35 / 100)⌋) :=
  resolve_margins_floor 100 24 45 35 35 (by norm_num) (by norm_num)
    (by norm_num) (by norm_num)

/-- C9: in the fixed-text composer with standard orientation, for die-cut
kinds the vertical text offset is `(height - textH) // 2 + (mt - mb) // 2`,
and for every kind the horizontal offset is `max ((width - textW) // 2) 0`
(the canvas width being unchanged from the input in standard orientation). -/
theorem create_label_im_standard_offsets (kind : LabelKind)
    (width0 height0 mt mb ml mr textW textH : ℤ)
    (hw : 1 ≤ width0) (hh : 1 ≤ height0) :
    let L := create_label_im_layout kind LabelOrient.standard width0 height0
      mt mb ml mr textW textH
    ((kind = LabelKind.dieCut ∨ kind = LabelKind.roundDieCut) →
      L.vertical_offset = (height0 - textH).fdiv 2 + (mt - mb).fdiv 2) ∧
    L.width = width0 ∧
    L.horizontal_offset = max ((L.width - textW).fdiv 2) 0 := by
  intro L
  have hW : L.width = width0 := by
    cases kind <;>
      simp [L, create_label_im_layout, max_eq_right hw]
  refine ⟨fun hkind => ?_, hW, ?_⟩
  · rcases hkind with h | h <;> subst h <;>
      simp [L, create_label_im_layout, max_eq_right hh]
  · rw [hW]
    cases kind <;>
      simp [L, create_label_im_layout, max_eq_right hw]

/-- C9 witness: a die-cut label of 306×991 printable dots with margins 24/45
and a 100×50 text box is offset by ((991-50)//2 + (24-45)//2, centered
horizontally). -/
theorem create_label_im_standard_offsets_witness :
    let L := create_label_im_layout LabelKind.dieCut LabelOrient.standard
      306 991 24 45 35 35 100 50
    ((LabelKind.dieCut = LabelKind.dieCut ∨
        LabelKind.dieCut = LabelKind.roundDieCut) →
      L.vertical_offset = ((991 : ℤ) - 50).fdiv 2 + ((24 : ℤ) - 45).fdiv 2) ∧
    L.width = 306 ∧
    L.horizontal_offset = max ((L.width - 100).fdiv 2) 0 :=
  create_label_im_standard_offsets LabelKind.dieCut 306 991 24 45 35 35 100 50
    (by norm_num) (by norm_num)

/-- C10: the cache key builder maps a `None` text and an empty-string text
(and likewise a `None` and an empty-string QR payload) to the same key when
all other parameters agree, because of the `text or ''` / `code or ''`
normalisation. -/
theorem build_bin_label_cache_key_none_eq_empty
    (hash : BinLabelKeyPayload → String)
    (context : List (String × CtxVal)) (qr_scale : ℚ) :
    (∀ code, build_bin_label_cache_key hash none code context qr_scale =
      build_bin_label_cache_key hash (some "") code context qr_scale) ∧
    (∀ text, build_bin_label_cache_key hash text none context qr_scale =
      build_bin_label_cache_key hash text (some "") context qr_scale) := by
  constructor <;> intro x <;> simp [build_bin_label_cache_key, py_str_or]

/-- C7: the cache key depends on the context dict only through the values of
the eight fields it reads, so two context dicts whose fields were inserted in
different orders (hence agree as lookup tables) yield the identical key for
identical text, QR payload and QR scale; the hash itself is a fixed pure
function of the canonical payload, hence stable across process restarts. -/
theorem build_bin_label_cache_key_order_independent
    (hash : BinLabelKeyPayload → String) (text code : Option String)
    (c1 c2 : List (String × CtxVal)) (qr_scale : ℚ)
    (h : ∀ k ∈ bin_label_key_fields, ctx_lookup c1 k = ctx_lookup c2 k) :
    build_bin_label_cache_key hash text code c1 qr_scale =
      build_bin_label_cache_key hash text code c2 qr_scale := by
  have h1 := h "label_size" (by simp [bin_label_key_fields])
  have h2 := h "font_size" (by simp [bin_label_key_fields])
  have h3 := h "align" (by simp [bin_label_key_fields])
  have h4 := h "orientation" (by simp [bin_label_key_fields])
  have h5 := h "margin_top" (by simp [bin_label_key_fields])
  have h6 := h "margin_bottom" (by simp [bin_label_key_fields])
  have h7 := h "margin_left" (by simp [bin_label_key_fields])
  have h8 := h "margin_right" (by simp [bin_label_key_fields])
  unfold build_bin_label_cache_key ctx_int
  rw [h1, h2, h3, h4, h5, h6, h7, h8]

/-- C7 witness: a label-designer context and the same context with its fields
inserted in reverse order produce the identical cache key. -/
theorem build_bin_label_cache_key_order_independent_witness :
    build_bin_label_cache_key (fun _ => "k") (some "HELLO") (some "")
      [("label_size", CtxVal.str "62"), ("font_size", CtxVal.int 100),
       ("align", CtxVal.str "center"), ("orientation", CtxVal.str "standard"),
       ("margin_top", CtxVal.int 24), ("margin_bottom", CtxVal.int 45),
       ("margin_left", CtxVal.int 35), ("margin_right", CtxVal.int 35)]
      (9 / 10) =
    build_bin_label_cache_key (fun _ => "k") (some "HELLO") (some "")
      [("margin_right", CtxVal.int 35), ("margin_left", CtxVal.int 35),
       ("margin_bottom", CtxVal.int 45), ("margin_top", CtxVal.int 24),
       ("orientation", CtxVal.str "standard"), ("align", CtxVal.str "center"),
       ("font_size", CtxVal.int 100), ("label_size", CtxVal.str "62")]
      (9 / 10) :=
  build_bin_label_cache_key_order_independent (fun _ => "k") (some "HELLO")
    (some "") _ _ (9 / 10) (by decide)

/-- C6: for every key and cache state, a lookup at time `now` returns the
stored bytes exactly when an entry is present and `now - ts ≤ max_age`; a
stale or missing entry yields the miss value `none`, never an error (the
function is total and returns an `Option`). -/
theorem get_cached_bin_label_png_some_iff {κ ν : Type} [DecidableEq κ]
    (cache : List (κ × ν × ℚ)) (key : κ) (now max_age : ℚ) (b : ν) :
    (get_cached_bin_label_png cache key now max_age).1 = some b ↔
      ∃ ts, assoc_find cache key = some (b, ts) ∧ now - ts ≤ max_age := by
  unfold get_cached_bin_label_png
  cases hfind : assoc_find cache key with
  | none => simp
  | some e =>
    obtain ⟨png, ts⟩ := e
    by_cases hage : max_age < now - ts
    · simp only [hage, if_true]
      constructor
      · intro h
        exact absurd h (by simp)
      · rintro ⟨ts', hts', hle⟩
        obtain ⟨rfl, rfl⟩ : png = b ∧ ts = ts' := by
          simpa [Prod.ext_iff] using hts'
        linarith
    · simp only [hage, if_false, Option.some.injEq]
      constructor
      · rintro rfl
        exact ⟨ts, rfl, by linarith⟩
      · rintro ⟨ts', hts', _⟩
        obtain ⟨rfl, rfl⟩ : png = b ∧ ts = ts' := by
          simpa [Prod.ext_iff] using hts'
        rfl

/-- C1 counterexample: for the combined composer on an endless label in
standard orientation with no QR image (text "HELLO" measured 260×73 at the
entering font, size class "62" with printable width 696, default margins of
font size 100, qrScale = 0.9), the computed `qr_size` is 127 — not 0 — and
the text zone width 499 is strictly smaller than the full available width
626; only the gap is 0 as claimed. -/
theorem compose_bin_label_no_qr_not_full_width :
    (compose_bin_label_geom LabelKind.endless LabelOrient.standard 260 73
        696 0 24 45 35 35 false (9 / 10)).gap = 0 ∧
    (compose_bin_label_geom LabelKind.endless LabelOrient.standard 260 73
        696 0 24 45 35 35 false (9 / 10)).qr_size = 127 ∧
    ¬ ((compose_bin_label_geom LabelKind.endless LabelOrient.standard 260 73
        696 0 24 45 35 35 false (9 / 10)).qr_size = 0 ∧
       (compose_bin_label_geom LabelKind.endless LabelOrient.standard 260 73
        696 0 24 45 35 35 false (9 / 10)).text_w =
       (compose_bin_label_geom LabelKind.endless LabelOrient.standard 260 73
        696 0 24 45 35 35 false (9 / 10)).avail_w) := by
  decide

/-- C1 amended: with no QR image on an endless/standard label the gap is 0,
but `qr_size` is still computed as `int(max(1, qrScale*(textH+mt+mb)))` and
is therefore at least 1, and the text zone gets `max 1 (availW - qr_size)`
pixels — strictly less than the full available width whenever the available
width is at least 2. -/
theorem compose_bin_label_no_qr_geom (text_w0 text_h0 width0 height0 : ℤ)
    (mt mb ml mr : ℤ) (qr_scale : ℚ) (g : BinLabelGeom)
    (hw : 1 ≤ width0) (havail : 2 ≤ width0 - ml - mr)
    (hg : g = compose_bin_label_geom LabelKind.endless LabelOrient.standard
      text_w0 text_h0 width0 height0 mt mb ml mr false qr_scale) :
    g.gap = 0 ∧ 1 ≤ g.qr_size ∧
    g.text_w = max 1 (g.avail_w - g.qr_size) ∧ g.text_w < g.avail_w := by
  have hq : (1 : ℤ) ≤ py_int (max 1 (qr_scale * ((text_h0 + mt + mb : ℤ) : ℚ))) := by
    rw [py_int_eq_floor _ (le_trans zero_le_one (le_max_left _ _))]
    rw [Int.le_floor]
    exact_mod_cast le_max_left 1 _
  have hgap : g.gap = 0 := by
    simp [hg, compose_bin_label_geom]
  have hqr : g.qr_size = py_int (max 1 (qr_scale * ((text_h0 + mt + mb : ℤ) : ℚ))) := by
    simp [hg, compose_bin_label_geom]
  have havw : g.avail_w = width0 - ml - mr := by
    simp [hg, compose_bin_label_geom, max_eq_right hw]
    linarith
  have htw : g.text_w = max 1 (g.avail_w - (g.qr_size + g.gap)) := by
    simp [hg, compose_bin_label_geom]
  refine ⟨hgap, hqr ▸ hq, ?_, ?_⟩
  · rw [htw, hgap, add_zero]
  · rw [htw, hgap, add_zero]
    have h2 : 2 ≤ g.avail_w := by rw [havw]; exact havail
    have : g.avail_w - g.qr_size ≤ g.avail_w - 1 := by
      have := hqr ▸ hq
      linarith
    calc max 1 (g.avail_w - g.qr_size) ≤ g.avail_w - 1 :=
          max_le (by linarith) this
    _ < g.avail_w := by linarith

/-- Invariants of the growth loop: it runs at most `fuel` iterations, never
drops the font size below an incoming lower bound of 10, and keeps the carried
wrapped text and measured box consistent with the carried font size. -/
theorem bin_fit_grow_spec (wrapF : String → ℕ → ℤ → String)
    (measureF : String → ℕ → ℤ × ℤ) (text : String) (text_w target_h : ℤ) :
    ∀ (fuel size : ℕ) (wrapped : String) (tw th : ℤ),
      10 ≤ size → wrapped = wrapF text size text_w →
      (tw, th) = measureF wrapped size →
      (bin_fit_grow wrapF measureF text text_w target_h fuel
          size wrapped tw th).iters ≤ fuel ∧
      10 ≤ (bin_fit_grow wrapF measureF text text_w target_h fuel
          size wrapped tw th).size ∧
      (bin_fit_grow wrapF measureF text text_w target_h fuel
          size wrapped tw th).wrapped =
        wrapF text (bin_fit_grow wrapF measureF text text_w target_h fuel
          size wrapped tw th).size text_w ∧
      ((bin_fit_grow wrapF measureF text text_w target_h fuel
          size wrapped tw th).t_w,
       (bin_fit_grow wrapF measureF text text_w target_h fuel
          size wrapped tw th).t_h) =
        measureF (bin_fit_grow wrapF measureF text text_w target_h fuel
          size wrapped tw th).wrapped
          (bin_fit_grow wrapF measureF text text_w target_h fuel
          size wrapped tw th).size := by
  intro fuel
  induction fuel with
  | zero =>
    intro size wrapped tw th h1 h2 h3
    exact ⟨le_refl _, h1, h2, h3⟩
  | succ n ih =>
    intro size wrapped tw th h1 h2 h3
    rw [bin_fit_grow]
    dsimp only
    split
    · split
      · rename_i hcond haccept
        have hnext : 10 ≤ (py_int ((size : ℚ) * (112 / 100))).toNat := by
          have hfloor : (size : ℤ) ≤ py_int ((size : ℚ) * (112 / 100)) := by
            rw [py_int_eq_floor _ (by positivity)]
            rw [Int.le_floor]
            push_cast
            nlinarith [Nat.cast_nonneg (α := ℚ) size]
          omega
        obtain ⟨g1, g2, g3, g4⟩ := ih ((py_int ((size : ℚ) * (112 / 100))).toNat)
          (wrapF text ((py_int ((size : ℚ) * (112 / 100))).toNat) text_w)
          (measureF (wrapF text ((py_int ((size : ℚ) * (112 / 100))).toNat) text_w)
            ((py_int ((size : ℚ) * (112 / 100))).toNat)).1
          (measureF (wrapF text ((py_int ((size : ℚ) * (112 / 100))).toNat) text_w)
            ((py_int ((size : ℚ) * (112 / 100))).toNat)).2
          hnext rfl rfl
        exact ⟨by simpa using Nat.add_le_add_right g1 1, g2, g3, g4⟩
      · exact ⟨by dsimp only; omega, h1, h2, h3⟩
    · exact ⟨by dsimp only; omega, h1, h2, h3⟩

/-- Invariants and exit analysis of the overflow guard: at most `fuel`
iterations run, the font size stays at least 10, wrapped text and measured
box stay consistent with the font size, and on return either the box fits,
or the size reached the floor 10, or the loop used all its fuel. -/
theorem bin_fit_shrink_spec (wrapF : String → ℕ → ℤ → String)
    (measureF : String → ℕ → ℤ × ℤ) (text : String) (text_w text_h : ℤ) :
    ∀ (fuel size : ℕ) (wrapped : String) (tw th : ℤ),
      10 ≤ size → wrapped = wrapF text size text_w →
      (tw, th) = measureF wrapped size →
      (bin_fit_shrink wrapF measureF text text_w text_h fuel
          size wrapped tw th).iters ≤ fuel ∧
      10 ≤ (bin_fit_shrink wrapF measureF text text_w text_h fuel
          size wrapped tw th).size ∧
      (bin_fit_shrink wrapF measureF text text_w text_h fuel
          size wrapped tw th).wrapped =
        wrapF text (bin_fit_shrink wrapF measureF text text_w text_h fuel
          size wrapped tw th).size text_w ∧
      ((bin_fit_shrink wrapF measureF text text_w text_h fuel
          size wrapped tw th).t_w,
       (bin_fit_shrink wrapF measureF text text_w text_h fuel
          size wrapped tw th).t_h) =
        measureF (bin_fit_shrink wrapF measureF text text_w text_h fuel
          size wrapped tw th).wrapped
          (bin_fit_shrink wrapF measureF text text_w text_h fuel
          size wrapped tw th).size ∧
      (((bin_fit_shrink wrapF measureF text text_w text_h fuel
          size wrapped tw th).t_w ≤ text_w ∧
        (bin_fit_shrink wrapF measureF text text_w text_h fuel
          size wrapped tw th).t_h ≤ text_h) ∨
       (bin_fit_shrink wrapF measureF text text_w text_h fuel
          size wrapped tw th).size = 10 ∨
       (bin_fit_shrink wrapF measureF text text_w text_h fuel
          size wrapped tw th).iters = fuel) := by
  intro fuel
  induction fuel with
  | zero =>
    intro size wrapped tw th h1 h2 h3
    exact ⟨le_refl _, h1, h2, h3, Or.inr (Or.inr rfl)⟩
  | succ n ih =>
    intro size wrapped tw th h1 h2 h3
    rw [bin_fit_shrink]
    dsimp only
    split
    · rename_i hcond
      obtain ⟨g1, g2, g3, g4, g5⟩ := ih (max 10 (py_int ((size : ℚ) * (90 / 100))).toNat)
        (wrapF text (max 10 (py_int ((size : ℚ) * (90 / 100))).toNat) text_w)
        (measureF (wrapF text (max 10 (py_int ((size : ℚ) * (90 / 100))).toNat) text_w)
          (max 10 (py_int ((size : ℚ) * (90 / 100))).toNat)).1
        (measureF (wrapF text (max 10 (py_int ((size : ℚ) * (90 / 100))).toNat) text_w)
          (max 10 (py_int ((size : ℚ) * (90 / 100))).toNat)).2
        (le_max_left _ _) rfl rfl
      refine ⟨by simpa using Nat.add_le_add_right g1 1, g2, g3, g4, ?_⟩
      rcases g5 with h | h | h
      · exact Or.inl h
      · exact Or.inr (Or.inl h)
      · exact Or.inr (Or.inr (by simp [h]))
    · rename_i hcond
      rw [Classical.not_and_iff_or_not_not] at hcond
      refine ⟨by dsimp only; omega, h1, h2, h3, ?_⟩
      rcases hcond with h | h
      · push_neg at h
        exact Or.inl ⟨h.2, h.1⟩
      · push_neg at h
        exact Or.inr (Or.inl (le_antisymm h h1))

/-- C2 amended: for every wrap/measure oracle, every text, zone dimensions
and auto-fit flag, and every base font size at least 10, the fitting stage of
the combined composer performs at most 12 growth and 12 shrink measurement
steps, the returned wrapped block and measured box are those of the returned
font size, and either the box fits the text zone, or the returned font size
is exactly 10, or the shrink guard exhausted all 12 iterations while still
overflowing. -/
theorem fit_bin_label_text_bounded (wrapF : String → ℕ → ℤ → String)
    (measureF : String → ℕ → ℤ × ℤ) (text : String) (text_w text_h : ℤ)
    (base_size : ℕ) (auto_fit : Bool) (r : BinFitResult)
    (hbase : 10 ≤ base_size)
    (hr : r = fit_bin_label_text wrapF measureF text text_w text_h
      base_size auto_fit) :
    r.grow_iters ≤ 12 ∧ r.shrink_iters ≤ 12 ∧
    r.wrapped = wrapF text r.size text_w ∧
    (r.t_w, r.t_h) = measureF r.wrapped r.size ∧
    ((r.t_w ≤ text_w ∧ r.t_h ≤ text_h) ∨ r.size = 10 ∨
      r.shrink_iters = 12) := by
  subst hr
  cases auto_fit with
  | false =>
    obtain ⟨s1, s2, s3, s4, s5⟩ := bin_fit_shrink_spec wrapF measureF text
      text_w text_h 12 base_size (wrapF text base_size text_w)
      (measureF (wrapF text base_size text_w) base_size).1
      (measureF (wrapF text base_size text_w) base_size).2 hbase rfl rfl
    exact ⟨Nat.zero_le _, s1, s3, s4, s5⟩
  | true =>
    obtain ⟨g1, g2, g3, g4⟩ := bin_fit_grow_spec wrapF measureF text
      text_w text_h 12 base_size (wrapF text base_size text_w)
      (measureF (wrapF text base_size text_w) base_size).1
      (measureF (wrapF text base_size text_w) base_size).2 hbase rfl rfl
    obtain ⟨s1, s2, s3, s4, s5⟩ := bin_fit_shrink_spec wrapF measureF text
      text_w text_h 12 _ _ _ _ g2 g3 g4
    exact ⟨g1, s1, s3, s4, s5⟩

/-- C2 counterexample: with a plausible oracle for a single overlong word
(width 100 per unit of font size), zone 50×10 and base font size 500, the
fitting stage exhausts its 12 shrink iterations and returns font size 137
with a box of 13700×137 — it neither fits the zone nor reaches the floor 10,
refuting the claimed fits-or-floor disjunction. -/
theorem fit_bin_label_text_guard_exhausted :
    (fit_bin_label_text one_word_wrap one_word_measure "x" 50 10 500
        true).size = 137 ∧
    (fit_bin_label_text one_word_wrap one_word_measure "x" 50 10 500
        true).shrink_iters = 12 ∧
    ¬ (((fit_bin_label_text one_word_wrap one_word_measure "x" 50 10 500
          true).t_w ≤ 50 ∧
        (fit_bin_label_text one_word_wrap one_word_measure "x" 50 10 500
          true).t_h ≤ 10) ∨
       (fit_bin_label_text one_word_wrap one_word_measure "x" 50 10 500
          true).size = 10) := by
  decide

/-- C2 witness: the amended bound theorem at the counterexample instance. -/
theorem fit_bin_label_text_bounded_witness :
    (fit_bin_label_text one_word_wrap one_word_measure "x" 50 10 500
      true).grow_iters ≤ 12 ∧
    (fit_bin_label_text one_word_wrap one_word_measure "x" 50 10 500
      true).shrink_iters ≤ 12 ∧
    (fit_bin_label_text one_word_wrap one_word_measure "x" 50 10 500
      true).wrapped = one_word_wrap "x"
      (fit_bin_label_text one_word_wrap one_word_measure "x" 50 10 500
        true).size 50 ∧
    ((fit_bin_label_text one_word_wrap one_word_measure "x" 50 10 500
      true).t_w,
     (fit_bin_label_text one_word_wrap one_word_measure "x" 50 10 500
      true).t_h) = one_word_measure
      (fit_bin_label_text one_word_wrap one_word_measure "x" 50 10 500
        true).wrapped
      (fit_bin_label_text one_word_wrap one_word_measure "x" 50 10 500
        true).size ∧
    (((fit_bin_label_text one_word_wrap one_word_measure "x" 50 10 500
        true).t_w ≤ 50 ∧
      (fit_bin_label_text one_word_wrap one_word_measure "x" 50 10 500
        true).t_h ≤ 10) ∨
     (fit_bin_label_text one_word_wrap one_word_measure "x" 50 10 500
       true).size = 10 ∨
     (fit_bin_label_text one_word_wrap one_word_measure "x" 50 10 500
       true).shrink_iters = 12) :=
  fit_bin_label_text_bounded one_word_wrap one_word_measure "x" 50 10 500
    true _ (by norm_num) rfl

/-- Dict assignment stores the new value at the key. -/
theorem assoc_find_set {κ ν : Type} [DecidableEq κ]
    (c : List (κ × ν)) (k : κ) (v : ν) :
    assoc_find (assoc_set c k v) k = some v := by
  induction c with
  | nil => simp [assoc_set, assoc_find]
  | cons f rest ih =>
    obtain ⟨k', v'⟩ := f
    by_cases h : k = k'
    · simp [assoc_set, assoc_find, h]
    · simp [assoc_set, assoc_find, h, ih]

/-- Every entry after a dict assignment is the new binding or an old entry. -/
theorem assoc_set_subset {κ ν : Type} [DecidableEq κ]
    (c : List (κ × ν)) (k : κ) (v : ν) :
    ∀ e ∈ assoc_set c k v, e = (k, v) ∨ e ∈ c := by
  induction c with
  | nil =>
    intro e he
    simp only [assoc_set, List.mem_singleton] at he
    exact Or.inl he
  | cons f rest ih =>
    obtain ⟨k', v'⟩ := f
    intro e he
    by_cases h : k = k'
    · rw [assoc_set, if_pos h] at he
      rcases List.mem_cons.mp he with rfl | he'
      · exact Or.inl rfl
      · exact Or.inr (List.mem_cons_of_mem _ he')
    · rw [assoc_set, if_neg h] at he
      rcases List.mem_cons.mp he with rfl | he'
      · exact Or.inr (List.mem_cons_self _ _)
      · rcases ih e he' with h1 | h1
        · exact Or.inl h1
        · exact Or.inr (List.mem_cons_of_mem _ h1)

/-- If no old entry satisfies `p` but the new binding does, a dict assignment
leaves exactly one `p`-entry. -/
theorem assoc_set_countP {κ ν : Type} [DecidableEq κ]
    (c : List (κ × ν)) (k : κ) (v : ν) (p : κ × ν → Bool)
    (hc : ∀ e ∈ c, p e = false) (hv : p (k, v) = true) :
    (assoc_set c k v).countP p = 1 := by
  induction c with
  | nil => simp [assoc_set, List.countP_cons, hv]
  | cons f rest ih =>
    obtain ⟨k', v'⟩ := f
    by_cases h : k = k'
    · subst h
      have hrest : rest.countP p = 0 :=
        List.countP_eq_zero.mpr
          (fun e he => by simp [hc e (List.mem_cons_of_mem _ he)])
      simp [assoc_set, List.countP_cons, hv, hrest]
    · have hf : p (k', v') = false := hc _ (List.mem_cons_self _ _)
      have hih := ih (fun e he => hc e (List.mem_cons_of_mem _ he))
      simp [assoc_set, h, List.countP_cons, hf, hih]

/-- With duplicate-free keys, the only entry carrying key `k` after assigning
`k` is the new binding. -/
theorem assoc_set_eq_of_fst_eq {κ ν : Type} [DecidableEq κ] (k : κ) (v : ν) :
    ∀ c : List (κ × ν), (c.map Prod.fst).Nodup →
      ∀ e ∈ assoc_set c k v, e.1 = k → e = (k, v) := by
  intro c
  induction c with
  | nil =>
    intro _ e he _
    simpa [assoc_set] using he
  | cons f rest ih =>
    obtain ⟨k', v'⟩ := f
    intro hnodup e he hek
    simp only [List.map_cons, List.nodup_cons] at hnodup
    by_cases h : k = k'
    · rw [assoc_set, if_pos h] at he
      rcases List.mem_cons.mp he with rfl | he'
      · rfl
      · exact absurd (List.mem_map.mpr ⟨e, he', by rw [hek, h]⟩) hnodup.1
    · rw [assoc_set, if_neg h] at he
      rcases List.mem_cons.mp he with rfl | he'
      · exact absurd hek.symm h
      · exact ih hnodup.2 e he' hek

/-- A successful dict lookup exhibits a member. -/
theorem assoc_find_some_mem {κ ν : Type} [DecidableEq κ] (k : κ) (v : ν) :
    ∀ l : List (κ × ν), assoc_find l k = some v → (k, v) ∈ l := by
  intro l
  induction l with
  | nil => intro h; simp [assoc_find] at h
  | cons f rest ih =>
    obtain ⟨k', v'⟩ := f
    intro h
    rw [assoc_find] at h
    by_cases hk : k = k'
    · rw [if_pos hk] at h
      obtain rfl := Option.some.inj h
      rw [hk]
      exact List.mem_cons_self _ _
    · rw [if_neg hk] at h
      exact List.mem_cons_of_mem _ (ih h)

/-- Looking up `k` after a filter that keeps `(k, v)` succeeds, provided
`(k, v)` is the unique entry with key `k`. -/
theorem assoc_find_filter {κ ν : Type} [DecidableEq κ]
    (k : κ) (v : ν) (q : κ × ν → Bool) :
    ∀ l : List (κ × ν), (k, v) ∈ l →
      (∀ e ∈ l, e.1 = k → e = (k, v)) → q (k, v) = true →
      assoc_find (l.filter q) k = some v := by
  intro l
  induction l with
  | nil => intro h; simp at h
  | cons f rest ih =>
    intro hmem huniq hq
    by_cases hfk : f.1 = k
    · have hf : f = (k, v) := huniq f (List.mem_cons_self _ _) hfk
      rw [hf, List.filter_cons_of_pos hq, assoc_find, if_pos rfl]
    · obtain ⟨k', v'⟩ := f
      have hmem' : (k, v) ∈ rest := by
        rcases List.mem_cons.mp hmem with heq | h'
        · exact absurd (congrArg Prod.fst heq).symm hfk
        · exact h'
      have huniq' : ∀ e ∈ rest, e.1 = k → e = (k, v) :=
        fun e he => huniq e (List.mem_cons_of_mem _ he)
      have hkk : ¬ k = k' := fun h => hfk h.symm
      cases hqf : q (k', v') with
      | true =>
        rw [List.filter_cons_of_pos hqf, assoc_find, if_neg hkk]
        exact ih hmem' huniq' hq
      | false =>
        rw [List.filter_cons_of_neg (by simp [hqf])]
        exact ih hmem' huniq' hq

/-- After `_cache_bin_label_png` with a strictly fresh timestamp on a
duplicate-free store, the new entry is still found: the 20 evicted oldest
entries never include the entry that was just written. -/
theorem find_after_cache_bin_label_png {κ ν : Type} [DecidableEq κ]
    (cache : List (κ × ν × ℚ)) (key : κ) (png : ν) (t : ℚ)
    (hnodup : (cache.map Prod.fst).Nodup)
    (hts : ∀ e ∈ cache, e.2.2 < t) :
    assoc_find (cache_bin_label_png cache key png t) key = some (png, t) := by
  rw [cache_bin_label_png]
  dsimp only
  split
  · rename_i hlen
    set c1 := assoc_set cache key (png, t) with hc1
    set srt := List.insertionSort ts_le c1 with hsrt
    set evicted := (srt.take 20).map Prod.fst with hevicted
    have hperm : List.Perm srt c1 := List.perm_insertionSort ts_le c1
    have huniq : ∀ e ∈ c1, e.1 = key → e = (key, png, t) :=
      assoc_set_eq_of_fst_eq key (png, t) cache hnodup
    have hcount : c1.countP (fun e => decide (t ≤ e.2.2)) = 1 := by
      apply assoc_set_countP
      · intro e he
        simpa using not_le.mpr (hts e he)
      · simp
    have hkey_not : key ∉ evicted := by
      intro hk
      rw [hevicted] at hk
      obtain ⟨e, hetake, hefst⟩ := List.mem_map.mp hk
      have hesrt : e ∈ srt := List.mem_of_mem_take hetake
      have hec1 : e ∈ c1 := hperm.mem_iff.mp hesrt
      have he_eq : e = (key, png, t) := huniq e hec1 hefst
      have hlen_srt : srt.length = c1.length := hperm.length_eq
      have hdrop_len : (srt.drop 20).length = c1.length - 20 := by
        rw [List.length_drop, hlen_srt]
      have hpairwise : List.Pairwise ts_le srt :=
        List.sorted_insertionSort ts_le c1
      have hsplit : srt.take 20 ++ srt.drop 20 = srt :=
        List.take_append_drop 20 srt
      have hrel : ∀ a ∈ srt.take 20, ∀ b ∈ srt.drop 20, ts_le a b := by
        have := hsplit ▸ hpairwise
        exact (List.pairwise_append.mp this).2.2
      have hdrop_all : ∀ b ∈ srt.drop 20,
          (fun e => decide (t ≤ e.2.2)) b = true := by
        intro b hb
        have := hrel e hetake b hb
        rw [he_eq] at this
        simpa using this
      have hcount_drop : (srt.drop 20).countP (fun e => decide (t ≤ e.2.2)) =
          (srt.drop 20).length := List.countP_eq_length.mpr hdrop_all
      have hcount_take : 0 < (srt.take 20).countP (fun e => decide (t ≤ e.2.2)) := by
        apply List.countP_pos_iff.mpr
        exact ⟨e, hetake, by rw [he_eq]; simp⟩
      have hcount_srt : srt.countP (fun e => decide (t ≤ e.2.2)) = 1 :=
        (hperm.countP_eq _).trans hcount
      rw [← hsplit, List.countP_append, hcount_drop, hdrop_len] at hcount_srt
      omega
    apply assoc_find_filter key (png, t) _ c1
    · exact assoc_find_some_mem key (png, t) c1 (assoc_find_set cache key (png, t))
    · exact huniq
    · simpa using hkey_not
  · exact assoc_find_set cache key (png, t)

/-- C4: a `get` with the default max age immediately after a `put` returns
exactly the stored bytes, even when the `put` triggered capacity eviction;
the hypotheses say that the store has duplicate-free keys (a Python dict
invariant), that the wall clock is strictly increasing, and that the `get`
happens within the 120-unit age window. -/
theorem cache_bin_label_png_roundtrip {κ ν : Type} [DecidableEq κ]
    (cache : List (κ × ν × ℚ)) (key : κ) (png : ν) (t now : ℚ)
    (hnodup : (cache.map Prod.fst).Nodup)
    (hts : ∀ e ∈ cache, e.2.2 < t)
    (hage : now - t ≤ 120) :
    (get_cached_bin_label_png_default
      (cache_bin_label_png cache key png t) key now).1 = some png := by
  rw [get_cached_bin_label_png_default, get_cached_bin_label_png,
    find_after_cache_bin_label_png cache key png t hnodup hts]
  dsimp only
  rw [if_neg (not_lt.mpr hage)]

/-- C4 witness: on a one-entry store with an older timestamp, put-then-get
round-trips. -/
theorem cache_bin_label_png_roundtrip_witness :
    (get_cached_bin_label_png_default
      (cache_bin_label_png [(0, 5, (0 : ℚ))] 1 7 1) 1 1).1 = some 7 :=
  cache_bin_label_png_roundtrip [(0, 5, (0 : ℚ))] 1 7 1 1 (by decide)
    (by decide) (by norm_num)

set_option maxRecDepth 40000 in
/-- C5: starting from the empty store, after inserting 121 entries with
distinct keys 0..120 at strictly increasing timestamps 0..120, the store
holds at most 100 entries (81, after the two capacity prunes), the 20
entries that were oldest at insertion time (keys 0..19) are no longer
present, and each of the 80 most recently inserted entries (keys 41..120)
is still retrievable immediately afterwards. -/
theorem cache_capacity_run_spec :
    cache_capacity_run.length ≤ 100 ∧
    (∀ i < 20, assoc_find cache_capacity_run i = none) ∧
    (∀ i < 121, 41 ≤ i →
      (get_cached_bin_label_png_default cache_capacity_run i 120).1 =
        some (1000 + i)) := by
  decide

/-- C5 witness: the oldest key 0 is gone while key 41 of the recent 80 is
still retrievable, by the capacity theorem at concrete indices. -/
theorem cache_capacity_run_spec_witness :
    assoc_find cache_capacity_run 0 = none ∧
    (get_cached_bin_label_png_default cache_capacity_run 41 120).1 =
      some 1041 :=
  ⟨cache_capacity_run_spec.2.1 0 (by norm_num),
   cache_capacity_run_spec.2.2 41 (by norm_num) (by norm_num)⟩

/-- C1 witness: the amended geometry at the concrete "HELLO" instance
(measured 260×73, size class "62", default margins of font size 100,
qrScale = 0.9). -/
theorem compose_bin_label_no_qr_geom_witness :
    (compose_bin_label_geom LabelKind.endless LabelOrient.standard
      260 73 696 0 24 45 35 35 false (9 / 10)).gap = 0 ∧
    1 ≤ (compose_bin_label_geom LabelKind.endless LabelOrient.standard
      260 73 696 0 24 45 35 35 false (9 / 10)).qr_size ∧
    (compose_bin_label_geom LabelKind.endless LabelOrient.standard
      260 73 696 0 24 45 35 35 false (9 / 10)).text_w =
      max 1 ((compose_bin_label_geom LabelKind.endless LabelOrient.standard
        260 73 696 0 24 45 35 35 false (9 / 10)).avail_w -
       (compose_bin_label_geom LabelKind.endless LabelOrient.standard
        260 73 696 0 24 45 35 35 false (9 / 10)).qr_size) ∧
    (compose_bin_label_geom LabelKind.endless LabelOrient.standard
      260 73 696 0 24 45 35 35 false (9 / 10)).text_w <
    (compose_bin_label_geom LabelKind.endless LabelOrient.standard
      260 73 696 0 24 45 35 35 false (9 / 10)).avail_w :=
  compose_bin_label_no_qr_geom 260 73 696 0 24 45 35 35 (9 / 10) _
    (by norm_num) (by norm_num) rfl
